import Mathlib

/-!
Verification development for the ESIC PDF data extractor (`esic.py`).

The Python source is shallowly embedded below.  Strings are modelled as
`List Char` restricted to the ASCII behaviour of the Python string
operations actually exercised by the program (the documents it processes
are ASCII apart from the rupee sign, which is modelled explicitly).
Python `float` values are modelled exactly by the type `PyFloat`
(rationals plus the special values); binary rounding and
overflow-to-infinity of decimal literals are not modelled, which is
exact on every value appearing in the program's data and claims.
-/

/-- Python whitespace test for the ASCII range (`str.strip`, `str.split`,
`\s` in patterns): space, tab, newline, carriage return, vertical tab,
form feed. -/
def pyWs (c : Char) : Bool :=
  c = ' ' || c = '\t' || c = '\n' || c = '\r' || c = Char.ofNat 11 || c = Char.ofNat 12

/-- Python `str.strip()` (ASCII whitespace). -/
def pyStrip (l : List Char) : List Char :=
  (((l.dropWhile pyWs).reverse).dropWhile pyWs).reverse

/-- Python `str.lower()` (ASCII letters). -/
def pyLower (l : List Char) : List Char :=
  l.map Char.toLower

/-- Python substring membership `needle in hay`. -/
def pyContains (hay needle : List Char) : Bool :=
  match hay with
  | [] => needle.isEmpty
  | _ :: t => needle.isPrefixOf hay || pyContains t needle

/-- Python `str.split()` with no argument: split on whitespace runs,
dropping empty pieces. -/
def pySplitWs (l : List Char) : List (List Char) :=
  (List.splitOnP pyWs l).filter (fun x => !x.isEmpty)

/-- Python `str.split(sep)` for a single separator character: split at
every occurrence, keeping empty pieces. -/
def pySplitChar (sep : Char) (l : List Char) : List (List Char) :=
  List.splitOnP (fun c => c = sep) l

/-- Python `' '.join(parts)`. -/
def joinSpace (ts : List (List Char)) : List Char :=
  List.intercalate [' '] ts

/-- Python `str.capitalize()` for ASCII: first character uppercased, the
rest lowercased. -/
def pyCapitalize (l : List Char) : List Char :=
  match l with
  | [] => []
  | c :: r => c.toUpper :: pyLower r

/-- Python `str.isdigit()` for ASCII: nonempty and all decimal digits. -/
def pyIsDigitStr (l : List Char) : Bool :=
  !l.isEmpty && l.all Char.isDigit

/-- The rupee sign removed by `safe_numeric_convert_challan`. -/
def rupeeChar : Char := Char.ofNat 8377

/-- The apostrophe character (used in the organization anchor line and in
the `employer's` patterns). -/
def aposChar : Char := Char.ofNat 39

/-- A Python `float` value: a finite value modelled exactly as a rational,
or one of the special values produced by the literals `inf`/`-inf`/`nan`. -/
inductive PyFloat where
  | finite (q : ℚ)
  | inf
  | ninf
  | nan
deriving DecidableEq, Repr

/-- Scan a maximal Python digit sequence with PEP-515 underscores (an
underscore must sit between two digits; a violating underscore is not
consumed).  Returns the digits (underscores removed) and the rest. -/
def dseq : List Char → List Char × List Char
  | [] => ([], [])
  | c :: '_' :: e :: r2 =>
    if c.isDigit then
      if e.isDigit then
        let (ds, r) := dseq (e :: r2)
        (c :: ds, r)
      else ([c], '_' :: e :: r2)
    else ([], c :: '_' :: e :: r2)
  | c :: rest =>
    if c.isDigit then
      let (ds, r) := dseq rest
      (c :: ds, r)
    else ([], c :: rest)

/-- Numeric value of a digit list. -/
def natOfDigits (l : List Char) : ℕ :=
  l.foldl (fun n c => 10 * n + (c.toNat - 48)) 0

/-- Python `float(s)` on ASCII input: optional surrounding whitespace,
optional sign, then `inf`/`infinity`/`nan` (case-insensitive) or a decimal
literal `[digits][.digits][ (e|E) [sign] digits ]` with at least one
mantissa digit.  Returns `none` where Python raises `ValueError`. -/
def pyFloat? (s : List Char) : Option PyFloat :=
  let t := pyStrip s
  let signed : Bool × List Char :=
    match t with
    | '+' :: r => (false, r)
    | '-' :: r => (true, r)
    | _ => (false, t)
  let neg := signed.1
  let u := signed.2
  let lu := pyLower u
  if lu = "inf".toList || lu = "infinity".toList then
    some (if neg then .ninf else .inf)
  else if lu = "nan".toList then some .nan
  else
    let (ip, r1) := dseq u
    let fracStep : List Char × List Char :=
      match r1 with
      | '.' :: rr => dseq rr
      | _ => ([], r1)
    let fp := fracStep.1
    let r2 := fracStep.2
    if (ip ++ fp).isEmpty then none
    else
      let mkVal : ℤ → Option PyFloat := fun ex =>
        let num : ℤ := (if neg then -1 else 1) * (natOfDigits (ip ++ fp) : ℤ) * 10 ^ ex.toNat
        let den : ℕ := 10 ^ fp.length * 10 ^ (-ex).toNat
        some (.finite (mkRat num den))
      match r2 with
      | [] => mkVal 0
      | e :: rr =>
        if e = 'e' || e = 'E' then
          let esigned : Bool × List Char :=
            match rr with
            | '+' :: x => (false, x)
            | '-' :: x => (true, x)
            | _ => (false, rr)
          let (ed, rr3) := dseq esigned.2
          if ed.isEmpty || !rr3.isEmpty then none
          else mkVal (if esigned.1 then -(natOfDigits ed : ℤ) else (natOfDigits ed : ℤ))
        else none

/-- Python `int(f)` truncation toward zero on a rational. -/
def pyTrunc (q : ℚ) : ℤ :=
  Int.tdiv q.num q.den

/-- The sentinel test of `safe_numeric_convert` (esic.py line 44):
`not value or value == '-' or str(value).lower() in ['not found', 'n/a', 'error', '']`. -/
def sentinelECR (v : List Char) : Bool :=
  v.isEmpty || v = "-".toList ||
    (["not found", "n/a", "error", ""].map String.toList).contains (pyLower v)

/-- `safe_numeric_convert(value)` (esic.py lines 41-55) with the default
`is_integer=False`: sentinels map to `0.0`; otherwise commas are removed,
the string stripped and parsed as a float, any parse failure mapping
to `0.0`. -/
def safe_numeric_convert (value : List Char) : PyFloat :=
  if sentinelECR value then .finite 0
  else
    match pyFloat? (pyStrip (value.filter (fun c => c ≠ ','))) with
    | some f => f
    | none => .finite 0

/-- `safe_numeric_convert(value, is_integer=True)` (esic.py lines 41-55):
`int(float(clean))`.  `none` models the uncaught `OverflowError` raised by
`int()` on an infinite float (only `ValueError`/`TypeError` are caught). -/
def safe_numeric_convert_int (value : List Char) : Option ℤ :=
  if sentinelECR value then some 0
  else
    match pyFloat? (pyStrip (value.filter (fun c => c ≠ ','))) with
    | some (.finite q) => some (pyTrunc q)
    | some .nan => some 0
    | some .inf | some .ninf => none
    | none => some 0

/-- Result of `safe_numeric_convert_challan`: either a number or the
original string handed back on parse failure. -/
inductive ChallanNum where
  | num (f : PyFloat)
  | orig (s : List Char)
deriving DecidableEq, Repr

/-- The sentinel test of `safe_numeric_convert_challan` (esic.py line 60):
`not value or str(value).lower() in ['not found', 'n/a', 'error', '']` —
note `'-'` is not in this list. -/
def sentinelChallan (v : List Char) : Bool :=
  v.isEmpty ||
    (["not found", "n/a", "error", ""].map String.toList).contains (pyLower v)

/-- `safe_numeric_convert_challan(value)` (esic.py lines 57-71) with the
default `is_integer=False`, the mode used at its sole call site:
sentinels map to `0.0`; otherwise the rupee sign and commas are removed,
the string stripped and parsed, returning the original string when the
parse fails. -/
def safe_numeric_convert_challan (value : List Char) : ChallanNum :=
  if sentinelChallan value then .num (.finite 0)
  else
    match pyFloat? (pyStrip ((value.filter (fun c => c ≠ rupeeChar)).filter (fun c => c ≠ ','))) with
    | some f => .num f
    | none => .orig value

/-- Capture assignments recorded along a successful match path (group
index paired with the captured slice).  The most recent assignment of a
group appears first. -/
abbrev Caps : Type := List (ℕ × List Char)

/-- Regular-expression abstract syntax covering exactly the constructs
appearing in the program's patterns.  Every repetition operator in those
patterns applies to a single-character class, which `repC` models
(`lo` up to `hi` occurrences, `none` meaning unbounded; greedy unless
`lzy`).  `bos`/`eol` are Python's `^`/`$` without `re.MULTILINE`
(`$` also matches just before a newline that ends the string), `wb`
is `\b`. -/
inductive RE where
  | eps
  | cls (p : Char → Bool)
  | cat (a b : RE)
  | alt (a b : RE)
  | grp (i : ℕ) (r : RE)
  | repC (p : Char → Bool) (lo : ℕ) (hi : Option ℕ) (lzy : Bool)
  | bos
  | eol
  | wb

/-- Python `\w` on ASCII: letters, digits, underscore. -/
def pyWordChar (c : Char) : Bool :=
  c.isAlpha || c.isDigit || c = '_'

/-- Try the continuation on `s.drop n` for each `n` in `counts` (already
ordered by the repetition's preference); first success wins. -/
def tryCounts (s : List Char) (prev : Option Char)
    (k : Option Char → List Char → Option α) : List ℕ → Option α
  | [] => none
  | n :: rest =>
    let taken := s.take n
    let prev2 := match taken.getLast? with
      | some c => some c
      | none => prev
    match k prev2 (s.drop n) with
    | some v => some v
    | none => tryCounts s prev k rest

/-- Backtracking matcher in continuation-passing style, implementing
Python `re` semantics for the fragment of `RE`: alternatives are tried
left to right, greedy repetitions longest first, lazy repetitions
shortest first.  `total` is the length of the full subject (for `^`),
`prev` the character before the current position (for `\b`). -/
def reM (total : ℕ) : RE → Option Char → List Char →
    (Option Char → List Char → Caps → Option α) → Caps → Option α
  | .eps, prev, s, k, caps => k prev s caps
  | .cls p, _, s, k, caps =>
    match s with
    | [] => none
    | c :: rest => if p c then k (some c) rest caps else none
  | .cat a b, prev, s, k, caps =>
    reM total a prev s (fun pv s2 cp => reM total b pv s2 k cp) caps
  | .alt a b, prev, s, k, caps =>
    match reM total a prev s k caps with
    | some v => some v
    | none => reM total b prev s k caps
  | .grp i r, prev, s, k, caps =>
    reM total r prev s
      (fun pv s2 cp => k pv s2 ((i, s.take (s.length - s2.length)) :: cp)) caps
  | .bos, prev, s, k, caps => if s.length = total then k prev s caps else none
  | .eol, prev, s, k, caps =>
    if s.isEmpty || s = ['\n'] then k prev s caps else none
  | .wb, prev, s, k, caps =>
    let wOf : Option Char → Bool := fun oc =>
      match oc with
      | some c => pyWordChar c
      | none => false
    if wOf prev != wOf s.head? then k prev s caps else none
  | .repC p lo hi lzy, prev, s, k, caps =>
    let mx := (s.takeWhile p).length
    let hiN := match hi with
      | some h => min h mx
      | none => mx
    if hiN < lo then none
    else
      let up := (List.range (hiN - lo + 1)).map (lo + ·)
      tryCounts s prev (fun pv s2 => k pv s2 caps) (if lzy then up else up.reverse)

/-- One step of `re.search`: try a match at the current position, else
advance one character. -/
def researchGo (total : ℕ) (r : RE) : Option Char → List Char → Option Caps
  | prev, t =>
    match reM total r prev t (fun _ _ cp => some cp) [] with
    | some cp => some cp
    | none =>
      match t with
      | [] => none
      | c :: rest => researchGo total r (some c) rest

/-- Python `re.search(r, s)`: leftmost match, returning its captures. -/
def research (r : RE) (s : List Char) : Option Caps :=
  researchGo s.length r none s

/-- Python `re.match(r, s)`: a match anchored at the start. -/
def rematch (r : RE) (s : List Char) : Option Caps :=
  reM s.length r none s (fun _ _ cp => some cp) []

/-- `match.group(i)`: most recent capture of group `i`. -/
def getGrp (caps : Caps) (i : ℕ) : Option (List Char) :=
  ((List.find? (fun x => x.1 = i)) caps).map (fun x => x.2)

/-- `re.search` followed by `match.group(i)`. -/
def researchGrp (r : RE) (s : List Char) (i : ℕ) : Option (List Char) :=
  (research r s).bind (fun cp => getGrp cp i)

/-- Worker for `re.findall`, whole-match semantics (none of the findall
patterns in the program contains a capture group).  Starts a fresh
search after each match, advancing one character past an empty match as
Python does; the fuel argument bounds the iteration count. -/
def findallGo (total : ℕ) (r : RE) : ℕ → Option Char → List Char → List (List Char)
  | 0, _, _ => []
  | fuel + 1, prev, t =>
    match reM total r prev t (fun _ s2 _ => some (t.length - s2.length)) [] with
    | some n =>
      if n = 0 then
        match t with
        | [] => [[]]
        | c :: rest => [] :: findallGo total r fuel (some c) rest
      else
        t.take n ::
          (let prev2 := (t.take n).getLast?
           findallGo total r fuel prev2 (t.drop n))
    | none =>
      match t with
      | [] => []
      | c :: rest => findallGo total r fuel (some c) rest

/-- Python `re.findall(r, s)` for group-free patterns. -/
def refindall (r : RE) (s : List Char) : List (List Char) :=
  findallGo s.length r (s.length + 1) none s

/-- Single-character literal. -/
def litc (c : Char) : RE := .cls (fun x => x = c)

/-- Case-sensitive literal string. -/
def lit (s : String) : RE :=
  s.toList.foldr (fun c acc => .cat (litc c) acc) .eps

/-- Case-insensitive literal string (ASCII, as under `re.IGNORECASE`). -/
def litci (s : String) : RE :=
  s.toList.foldr (fun c acc => .cat (.cls (fun x => x.toLower = c.toLower)) acc) .eps

/-- Concatenation of a pattern list. -/
def cats (l : List RE) : RE := l.foldr .cat .eps

/-- `p+` (greedy). -/
def rplus (p : Char → Bool) : RE := .repC p 1 none false

/-- `p*` (greedy). -/
def rstar (p : Char → Bool) : RE := .repC p 0 none false

/-- `p*?` (lazy). -/
def rstarL (p : Char → Bool) : RE := .repC p 0 none true

/-- `p{lo,hi}` (greedy). -/
def rrep (p : Char → Bool) (lo hi : ℕ) : RE := .repC p lo (some hi) false

/-- `p{lo,}` (greedy). -/
def rrepGE (p : Char → Bool) (lo : ℕ) : RE := .repC p lo none false

/-- `p?` (greedy). -/
def ropt (p : Char → Bool) : RE := .repC p 0 (some 1) false

/-- Non-newline character, Python `.` without `re.DOTALL`. -/
def pAny (c : Char) : Bool := c ≠ '\n'

/-- The primary pattern of `extract_month_from_text` (esic.py line 77):
`for\s+([A-Za-z]{3,9}\d{4})`. -/
def monthPrimaryRE : RE :=
  cats [lit "for", rplus pyWs,
    .grp 1 (cats [rrep Char.isAlpha 3 9, rrep Char.isDigit 4 4])]

/-- `([A-Za-z]{3,9})` applied with `re.match` (esic.py line 84). -/
def monthAlpha39RE : RE := .grp 1 (rrep Char.isAlpha 3 9)

/-- `([A-Za-z]+)` applied with `re.match` (esic.py line 110). -/
def alphaLeadRE : RE := .grp 1 (rplus Char.isAlpha)

/-- Alternative month patterns of esic.py lines 99-103, compiled with
`re.IGNORECASE`:
`Contribution\s+History.*?for\s+([A-Za-z]+)`,
`ECR\s+Of.*?for\s+([A-Za-z]+)`,
`Period[:\s]+([A-Za-z]+\s*\d{4})`. -/
def monthAltREs : List RE :=
  [cats [litci "Contribution", rplus pyWs, litci "History", rstarL pAny,
     litci "for", rplus pyWs, .grp 1 (rplus Char.isAlpha)],
   cats [litci "ECR", rplus pyWs, litci "Of", rstarL pAny,
     litci "for", rplus pyWs, .grp 1 (rplus Char.isAlpha)],
   cats [litci "Period", rplus (fun c => c = ':' || pyWs c),
     .grp 1 (cats [rplus Char.isAlpha, rstar pyWs, rrep Char.isDigit 4 4])]]

/-- The twelve-entry abbreviation table of esic.py lines 89-94/113-118. -/
def monthMap : List (List Char × List Char) :=
  [("Jan", "January"), ("Feb", "February"), ("Mar", "March"),
   ("Apr", "April"), ("May", "May"), ("Jun", "June"),
   ("Jul", "July"), ("Aug", "August"), ("Sep", "September"),
   ("Oct", "October"), ("Nov", "November"), ("Dec", "December")].map
    (fun x => (x.1.toList, x.2.toList))

/-- Python `month_mapping.get(k, k)`. -/
def monthGetD (k : List Char) : List Char :=
  match monthMap.find? (fun x => x.1 = k) with
  | some p => p.2
  | none => k

/-- The loop over the alternative month patterns (esic.py lines 105-119):
first pattern whose search succeeds and whose stripped capture starts
with a letter yields `month_mapping.get(run.capitalize(), run.capitalize())`;
otherwise the loop continues and the function returns "Not Found". -/
def monthAltLoop (text : List Char) : List RE → List Char
  | [] => "Not Found".toList
  | p :: rest =>
    match researchGrp p text 1 with
    | some g =>
      match rematch alphaLeadRE (pyStrip g) with
      | some cp2 =>
        match getGrp cp2 1 with
        | some run => monthGetD (pyCapitalize run)
        | none => monthAltLoop text rest
      | none => monthAltLoop text rest
    | none => monthAltLoop text rest

/-- `extract_month_from_text(text)` (esic.py lines 73-125).  The primary
pattern captures the period token; its leading 3-9 letter run,
capitalized, is looked up in the abbreviation table with the run itself
as the fallback.  If the primary pattern (or its inner letter match)
fails, the three alternative patterns are tried; if everything fails the
result is "Not Found". -/
def extract_month_from_text (text : List Char) : List Char :=
  match research monthPrimaryRE text with
  | some cp =>
    match getGrp cp 1 with
    | some period =>
      match rematch monthAlpha39RE period with
      | some cp2 =>
        match getGrp cp2 1 with
        | some run => monthGetD (pyCapitalize run)
        | none => monthAltLoop text monthAltREs
      | none => monthAltLoop text monthAltREs
    | none => monthAltLoop text monthAltREs
  | none => monthAltLoop text monthAltREs

/-- Header fields of `extracted_data['header_info']` (one `Option` per
dictionary key). -/
structure HeaderInfo where
  establishment_code : Option (List Char)
  period : Option (List Char)
  month : Option (List Char)
  organization : Option (List Char)
deriving DecidableEq, Repr

/-- The five summary totals of `extracted_data['summary_info']`, stored
as the matched strings. -/
structure SummaryInfo where
  total_ip_contribution : List Char
  total_employer_contribution : List Char
  total_contribution : List Char
  total_government_contribution : List Char
  total_monthly_wages : List Char
deriving DecidableEq, Repr

/-- The header/summary accumulator mutated by the scan of esic.py lines
151-175 (`summary_info` starts as the empty dict, hence the `Option`). -/
structure EcrAcc where
  header : HeaderInfo
  summary : Option SummaryInfo
deriving DecidableEq, Repr

/-- The empty accumulator created at esic.py lines 135-140. -/
def emptyEcrAcc : EcrAcc := ⟨⟨none, none, none, none⟩, none⟩

/-- Trigger-1 pattern (esic.py line 154):
`(ECR Of|Contribution History.*?Of)\s+(\d+)\s+for\s+([A-Za-z]+\d+)`. -/
def trig1RE : RE :=
  cats [.grp 1 (.alt (lit "ECR Of")
      (cats [lit "Contribution History", rstarL pAny, lit "Of"])),
    rplus pyWs, .grp 2 (rplus Char.isDigit), rplus pyWs, lit "for",
    rplus pyWs, .grp 3 (cats [rplus Char.isAlpha, rplus Char.isDigit])]

/-- Summary-amount token pattern (esic.py line 167): `[\d,]+\.?\d*`. -/
def amountsRE : RE :=
  cats [rplus (fun c => c.isDigit || c = ','),
    ropt (fun c => c = '.'), rstar Char.isDigit]

/-- The organization anchor substring of esic.py line 161:
`Employees' State Insurance Corporation`. -/
def orgAnchor : List Char :=
  "Employees".toList ++ [aposChar] ++ " State Insurance Corporation".toList

/-- One line of the header scan of esic.py lines 151-175: the
`if`/`elif` chain over the three triggers.  Trigger 1 assigns
establishment code, period and month from the match; trigger 2 assigns
the stripped line as organization; trigger 3 replaces the whole summary
dict with the first five amount tokens of the next line whenever at
least five are found.  Every assignment is a plain dict write — it
overwrites whatever was there. -/
def headerStep (acc : EcrAcc) (line nextLine : List Char) : EcrAcc :=
  if pyContains line "ECR Of".toList || pyContains line "Contribution History".toList then
    match research trig1RE line with
    | some cp =>
      match getGrp cp 2, getGrp cp 3 with
      | some g2, some g3 =>
        { acc with header := { acc.header with
            establishment_code := some g2,
            period := some g3,
            month := some (extract_month_from_text line) } }
      | _, _ => acc
    | none => acc
  else if pyContains line orgAnchor then
    { acc with header := { acc.header with organization := some (pyStrip line) } }
  else if pyContains line "Total IP Contribution".toList &&
      pyContains line "Total Employer Contribution".toList then
    match refindall amountsRE nextLine with
    | a0 :: a1 :: a2 :: a3 :: a4 :: _ =>
      { acc with summary := some ⟨a0, a1, a2, a3, a4⟩ }
    | _ => acc
  else acc

/-- The `for i, line in enumerate(lines)` header loop of one page
(esic.py line 151), threading the accumulator; `next_line` is the
following line or the empty string at the page's last line. -/
def headerScan : List (List Char) → EcrAcc → EcrAcc
  | [], acc => acc
  | l :: rest, acc => headerScan rest (headerStep acc l ((rest.head?).getD []))

/-- Row-start shape (esic.py lines 187/191): `re.search(r'^\d+\s+-\s+\d{10}', line)`;
with the `^` anchor and no `re.MULTILINE` this only matches at the start
of the string. -/
def rowStartRE : RE :=
  cats [.bos, rplus Char.isDigit, rplus pyWs, litc '-', rplus pyWs,
    rrep Char.isDigit 10 10]

/-- `re.match(r'^\d{10}$', part)` on a whitespace-free token: exactly ten
digits (`$` would admit a trailing newline, which a `split()` token
cannot contain). -/
def is10Digits (p : List Char) : Bool :=
  decide (p.length = 10) && p.all Char.isDigit

/-- The embedded-anchor test of esic.py lines 192-197: some
whitespace token at index `> 0` is exactly ten digits. -/
def hasEmbeddedIp (line : List Char) : Bool :=
  (pySplitWs line).enum.any (fun x => decide (0 < x.1) && is10Digits x.2)

/-- The row segmentation loop of esic.py lines 178-205 over one page's
lines.  `started` is `employee_section_started`, `acc` is
`employee_rows`.  A row-start line opens a row; while started, a line
beginning with digits either opens a row (if it carries an embedded
anchor) or is appended to the previous row; a `page`/`printed` footer
line stops the scan; everything else is skipped.  The inner re-test of
the row-start shape at line 191 is omitted: that branch is only reached
when the same test on the same line has just failed. -/
def rowSegment : List (List Char) → Bool → List (List Char) → List (List Char)
  | [], _, acc => acc
  | l :: rest, started, acc =>
    let line := pyStrip l
    if line.isEmpty then rowSegment rest started acc
    else if (research rowStartRE line).isSome then
      rowSegment rest true (acc ++ [line])
    else if started && (rematch (rplus Char.isDigit) line).isSome then
      if hasEmbeddedIp line then rowSegment rest started (acc ++ [line])
      else
        match acc.getLast? with
        | some last => rowSegment rest started (acc.dropLast ++ [last ++ ' ' :: line])
        | none => rowSegment rest started acc
    else if started && ("page".toList.isPrefixOf (pyLower line) ||
        "printed".toList.isPrefixOf (pyLower line)) then acc
    else rowSegment rest started acc

/-- `re.match(r'^\d+(\.\d{2})?$', s)` on a token: a nonempty digit run,
optionally followed by a dot and exactly two digits. -/
def isNumericTok (s : List Char) : Bool :=
  let ds := s.takeWhile Char.isDigit
  let rest := s.drop ds.length
  !ds.isEmpty && (rest.isEmpty ||
    (decide (rest.length = 3) && rest.head? = some '.' && (rest.drop 1).all Char.isDigit))

/-- `re.match(r'^(No|Work|Left|Service|Servic|-|Absent)$', part, re.IGNORECASE)`:
case-insensitive full match against the closed reason-keyword set. -/
def isReasonKw (p : List Char) : Bool :=
  (["no", "work", "left", "service", "servic", "-", "absent"].map
    String.toList).contains (pyLower p)

/-- The forward-only name/data classification of esic.py lines 268-288:
tokens after the anchor are name tokens until the first numeric token
(commas stripped) or reason keyword; from then on every token goes to
the data list.  Returns `(name_parts, data_parts)`. -/
def classifyGo : List (List Char) → Bool →
    List (List Char) × List (List Char) → List (List Char) × List (List Char)
  | [], _, st => st
  | part :: rest, nameStarted, (names, datas) =>
    if isNumericTok (part.filter (fun c => c ≠ ',')) then
      classifyGo rest false (names, datas ++ [part.filter (fun c => c ≠ ',')])
    else if isReasonKw part then
      classifyGo rest false (names, datas ++ [part])
    else if nameStarted then
      classifyGo rest nameStarted (names ++ [part], datas)
    else
      classifyGo rest nameStarted (names, datas ++ [part])

/-- Separation of the data tokens into numeric and text values
(esic.py lines 299-307). -/
def splitNumText (datas : List (List Char)) : List (List Char) × List (List Char) :=
  (datas.filter isNumericTok, datas.filter (fun p => !isNumericTok p))

/-- Count-based positional assignment of the numeric values (esic.py
lines 309-322): returns `(days, wages, contribution)` as strings with
the defaults `"0"`/`"0.00"`/`"0.00"` for unfilled fields. -/
def assignByCount (nv : List (List Char)) : List Char × List Char × List Char :=
  match nv with
  | [] => ("0".toList, "0.00".toList, "0.00".toList)
  | [c] => ("0".toList, "0.00".toList, c)
  | [w, c] => ("0".toList, w, c)
  | d :: w :: c :: _ => (d, w, c)

/-- Reason classification of esic.py lines 324-334. -/
def reasonOf (tv : List (List Char)) : List Char :=
  match tv with
  | [] => "-".toList
  | _ =>
    let rt := pyStrip (joinSpace tv)
    if pyContains rt "No".toList && pyContains rt "Work".toList then "No Work".toList
    else if pyContains rt "Left".toList &&
        (pyContains rt "Service".toList || pyContains rt "Servic".toList) then
      "Left Service".toList
    else if !rt.isEmpty && rt ≠ "-".toList then rt
    else "-".toList

/-- Decimal cosmetic rule of esic.py lines 336-340: append `.00` when the
string has no dot. -/
def ensureDec (s : List Char) : List Char :=
  if pyContains s ".".toList then s else s ++ ".00".toList

/-- One extracted employee record (esic.py lines 342-359) after the
numeric conversions. -/
structure EmployeeRecord where
  sno : ℤ
  isDisable : List Char
  ipNumber : List Char
  ipName : List Char
  days : ℤ
  wages : PyFloat
  contribution : PyFloat
  reason : List Char
  month : List Char
  totalIpContribution : PyFloat
  totalEmployerContribution : PyFloat
  totalContribution : PyFloat
  totalGovernmentContribution : PyFloat
  totalMonthlyWages : PyFloat
deriving DecidableEq, Repr

/-- `summary_info.get(key, '')` over the possibly-empty summary dict. -/
def sumGet (s : Option SummaryInfo) (f : SummaryInfo → List Char) : List Char :=
  match s with
  | some v => f v
  | none => []

/-- `parse_employee_row_improved(row_text, summary_info, header_info)`
(esic.py lines 231-365).  Returns `none` exactly where the Python
function returns `None`: empty stripped row, fewer than 6 tokens, no
ten-digit token, anchor index < 2 (the code's `not ip_number` test is
subsumed: a found token is nonempty), or the uncaught `OverflowError`
of an integer conversion of an infinite float. -/
def parse_employee_row_improved (rowText : List Char) (summary : Option SummaryInfo)
    (header : HeaderInfo) : Option EmployeeRecord :=
  let row := pyStrip rowText
  if row.isEmpty then none
  else
    let parts := pySplitWs row
    if parts.length < 6 then none
    else
      match parts.enum.find? (fun x => is10Digits x.2) with
      | none => none
      | some (ipIdx, ipNum) =>
        if ipIdx < 2 then none
        else
          let sno := if pyIsDigitStr (parts.headD []) then parts.headD [] else "1".toList
          let isDisable := parts.getD (ipIdx - 1) []
          let cls := classifyGo (parts.drop (ipIdx + 1)) true ([], [])
          let ipName := if cls.1.isEmpty then "UNKNOWN".toList else pyStrip (joinSpace cls.1)
          let nt := splitNumText cls.2
          let awc := assignByCount nt.1
          let wages := ensureDec awc.2.1
          let contribution := ensureDec awc.2.2
          match safe_numeric_convert_int sno, safe_numeric_convert_int awc.1 with
          | some snoI, some daysI =>
            some { sno := snoI, isDisable := isDisable, ipNumber := ipNum,
                   ipName := ipName, days := daysI,
                   wages := safe_numeric_convert wages,
                   contribution := safe_numeric_convert contribution,
                   reason := reasonOf nt.2,
                   month := (header.month).getD "Not Found".toList,
                   totalIpContribution :=
                     safe_numeric_convert (sumGet summary (fun v => v.total_ip_contribution)),
                   totalEmployerContribution :=
                     safe_numeric_convert (sumGet summary (fun v => v.total_employer_contribution)),
                   totalContribution :=
                     safe_numeric_convert (sumGet summary (fun v => v.total_contribution)),
                   totalGovernmentContribution :=
                     safe_numeric_convert (sumGet summary (fun v => v.total_government_contribution)),
                   totalMonthlyWages :=
                     safe_numeric_convert (sumGet summary (fun v => v.total_monthly_wages)) }
          | _, _ => none

/-- `self.required_keywords` (esic.py lines 615-617). -/
def required_keywords : List (List Char) :=
  ["esic", "challan", "employer", "transaction", "amount"].map String.toList

/-- `check_esic_keywords(text)` (esic.py lines 659-669): false on empty
text, otherwise true iff at least 3 of the five keywords occur as
substrings of the lowercased text. -/
def check_esic_keywords (text : List Char) : Bool :=
  if text.isEmpty then false
  else decide (3 ≤ required_keywords.countP (fun k => pyContains (pyLower text) k))

/-- `[:\s]`. -/
def pColonWs (c : Char) : Bool := c = ':' || pyWs c

/-- `[^\n\r]`. -/
def pNotNl (c : Char) : Bool := c ≠ '\n' && c ≠ '\r'

/-- `[\'s\s]` under `re.IGNORECASE`. -/
def pAposSWs (c : Char) : Bool := c = aposChar || c.toLower = 's' || pyWs c

/-- `[A-Z0-9]` under `re.IGNORECASE`. -/
def pAlnum (c : Char) : Bool := c.isAlpha || c.isDigit

/-- `[A-Z0-9\-\/]` under `re.IGNORECASE`. -/
def pAlnumDS (c : Char) : Bool := c.isAlpha || c.isDigit || c = '-' || c = '/'

/-- `[A-Z0-9\-\/\.]` under `re.IGNORECASE`. -/
def pAlnumDSD (c : Char) : Bool := pAlnumDS c || c = '.'

/-- `[-\/]`. -/
def pDashSlash (c : Char) : Bool := c = '-' || c = '/'

/-- `[0-9,]`. -/
def pDigitComma (c : Char) : Bool := c.isDigit || c = ','

/-- `[\s\|]`. -/
def pWsPipe (c : Char) : Bool := pyWs c || c = '|'

/-- `([^\n\r]+)` capture of the rest of the line. -/
def grpLine : RE := .grp 1 (rplus pNotNl)

/-- `(\d{1,2}[-\/]\d{1,2}[-\/]\d{4})` date capture. -/
def grpDate : RE :=
  .grp 1 (cats [rrep Char.isDigit 1 2, .cls pDashSlash, rrep Char.isDigit 1 2,
    .cls pDashSlash, rrep Char.isDigit 4 4])

/-- `₹?\s*([0-9,]+\.?\d*)` amount tail. -/
def amountTail : RE :=
  cats [ropt (fun c => c = rupeeChar), rstar pyWs,
    .grp 1 (cats [rplus pDigitComma, ropt (fun c => c = '.'), rstar Char.isDigit])]

/-- `(?:no|number|id)`. -/
def noNumberId : RE := .alt (litci "no") (.alt (litci "number") (litci "id"))

/-- `(?:no|number)`. -/
def noNumber : RE := .alt (litci "no") (litci "number")

/-- The `patterns` table of `extract_field_patterns` (esic.py lines
673-713), one ordered pattern list per simple field, compiled with
`re.IGNORECASE`. -/
def transaction_status_REs : List RE :=
  [cats [litci "status", rstar pColonWs, grpLine],
   cats [litci "transaction", rstar pyWs, litci "status", rstar pColonWs, grpLine],
   cats [litci "payment", rstar pyWs, litci "status", rstar pColonWs, grpLine]]

/-- `employer_code` patterns (esic.py lines 679-683). -/
def employer_code_REs : List RE :=
  [cats [litci "employer", rstar pAposSWs, litci "code", rstar pColonWs,
     .grp 1 (rplus Char.isDigit)],
   cats [litci "code", rstar pyWs, litci "no", rstar pColonWs,
     .grp 1 (rplus Char.isDigit)],
   cats [litci "employer", rstar pyWs, litci "no", rstar pColonWs,
     .grp 1 (rplus Char.isDigit)]]

/-- `employer_name` patterns (esic.py lines 684-688). -/
def employer_name_REs : List RE :=
  [cats [litci "employer", rstar pAposSWs, litci "name", rstar pColonWs, grpLine],
   cats [litci "name", rstar pyWs, litci "of", rstar pyWs, litci "employer",
     rstar pColonWs, grpLine],
   cats [litci "establishment", rstar pColonWs, grpLine]]

/-- `challan_period` patterns (esic.py lines 689-693). -/
def challan_period_REs : List RE :=
  [cats [litci "challan", rstar pyWs, litci "period", rstar pColonWs, grpLine],
   cats [litci "period", rstar pColonWs, grpLine],
   cats [litci "contribution", rstar pyWs, litci "period", rstar pColonWs, grpLine]]

/-- `challan_number` patterns (esic.py lines 694-698). -/
def challan_number_REs : List RE :=
  [cats [litci "challan", rstar pyWs, litci "no", rstar pColonWs,
     .grp 1 (rplus pAlnumDS)],
   cats [litci "challan", rstar pyWs, litci "number", rstar pColonWs,
     .grp 1 (rplus pAlnumDS)],
   cats [litci "receipt", rstar pyWs, litci "no", rstar pColonWs,
     .grp 1 (rplus pAlnumDS)]]

/-- `challan_created_date` patterns (esic.py lines 699-703). -/
def challan_created_date_REs : List RE :=
  [cats [litci "created", rstar pyWs, litci "date", rstar pColonWs, grpDate],
   cats [litci "generation", rstar pyWs, litci "date", rstar pColonWs, grpDate],
   cats [litci "date", rstar pyWs, litci "of", rstar pyWs, litci "creation",
     rstar pColonWs, grpDate]]

/-- `challan_submitted_date` patterns (esic.py lines 704-708). -/
def challan_submitted_date_REs : List RE :=
  [cats [litci "submitted", rstar pyWs, litci "date", rstar pColonWs, grpDate],
   cats [litci "payment", rstar pyWs, litci "date", rstar pColonWs, grpDate],
   cats [litci "transaction", rstar pyWs, litci "date", rstar pColonWs, grpDate]]

/-- `amount_paid` patterns (esic.py lines 709-713). -/
def amount_paid_REs : List RE :=
  [cats [litci "amount", rstar pyWs, litci "paid", rstar pColonWs, amountTail],
   cats [litci "total", rstar pyWs, litci "amount", rstar pColonWs, amountTail],
   cats [litci "paid", rstar pyWs, litci "amount", rstar pColonWs, amountTail]]

/-- The fourteen `transaction_number` patterns (esic.py lines 714-733),
in order, compiled with `re.IGNORECASE`. -/
def txnPatterns : List RE :=
  [cats [litci "transaction", rstar pyWs, noNumberId, rstar pColonWs,
     .grp 1 (rplus pAlnumDSD)],
   cats [litci "txn", rstar pyWs, noNumberId, rstar pColonWs,
     .grp 1 (rplus pAlnumDSD)],
   cats [litci "reference", rstar pyWs, noNumberId, rstar pColonWs,
     .grp 1 (rplus pAlnumDSD)],
   cats [litci "utr", rstar pyWs, noNumber, rstar pColonWs,
     .grp 1 (rplus pAlnumDSD)],
   cats [litci "bank", rstar pyWs, litci "reference", rstar pyWs, noNumber,
     rstar pColonWs, .grp 1 (rplus pAlnumDSD)],
   cats [litci "payment", rstar pyWs, litci "reference", rstar pyWs, noNumber,
     rstar pColonWs, .grp 1 (rplus pAlnumDSD)],
   cats [litci "ref", rstar pyWs, noNumber, rstar pColonWs,
     .grp 1 (rplus pAlnumDSD)],
   cats [litci "acknowledgment", rstar pyWs, noNumber, rstar pColonWs,
     .grp 1 (rplus pAlnumDSD)],
   cats [litci "ack", rstar pyWs, noNumber, rstar pColonWs,
     .grp 1 (rplus pAlnumDSD)],
   cats [litci "receipt", rstar pyWs, noNumber, rstar pColonWs,
     .grp 1 (rplus pAlnumDSD)],
   cats [litci "grn", rstar pyWs, noNumber, rstar pColonWs,
     .grp 1 (rplus pAlnumDSD)],
   cats [.alt .bos (litc '\n'), rstar pyWs,
     .grp 1 (.alt (cats [rrepGE Char.isAlpha 2, rrepGE Char.isDigit 6])
       (.alt (cats [rrepGE Char.isDigit 10, rplus Char.isAlpha])
         (rrepGE Char.isDigit 12))),
     rstar pyWs, .alt (litc '\n') .eol],
   cats [.alt (litci "transaction")
       (.alt (litci "txn") (.alt (litci "ref") (litci "reference"))),
     rstar pWsPipe, .grp 1 (rrepGE pAlnum 8)],
   .grp 1 (rrep pAlnum 10 20)]

/-- The `false_positives` list of `_is_valid_transaction_number`
(esic.py lines 798-801). -/
def falsePositives : List (List Char) :=
  ["esic", "challan", "employer", "employee", "amount", "total",
   "period", "month", "year", "date", "time", "status", "paid"].map String.toList

/-- `_is_valid_transaction_number(candidate)` (esic.py lines 792-816):
reject empty or shorter than 8; reject on any false-positive substring
of the lowercased candidate; accept letters+digits; accept digits
without letters when the length is at least 12; otherwise reject. -/
def is_valid_transaction_number (candidate : List Char) : Bool :=
  if candidate.isEmpty || decide (candidate.length < 8) then false
  else if falsePositives.any (fun fp => pyContains (pyLower candidate) fp) then false
  else
    let hasLetters := candidate.any Char.isAlpha
    let hasNumbers := candidate.any Char.isDigit
    if hasLetters && hasNumbers then true
    else if hasNumbers && !hasLetters && decide (12 ≤ candidate.length) then true
    else false

/-- `transaction_indicators` (esic.py lines 767-770). -/
def txnIndicators : List (List Char) :=
  ["transaction", "txn", "reference", "ref", "utr", "acknowledgment",
   "ack", "receipt", "grn", "bank", "payment"].map String.toList

/-- Phase 1 of `_extract_transaction_number` (esic.py lines 757-764):
try each specific pattern; a match whose stripped capture validates is
returned, otherwise the next pattern is tried. -/
def txnPhase1 (text : List Char) : List RE → Option (List Char)
  | [] => none
  | p :: rest =>
    match researchGrp p text 1 with
    | some g =>
      let c := pyStrip g
      if is_valid_transaction_number c then some c else txnPhase1 text rest
    | none => txnPhase1 text rest

/-- First candidate in the list passing the validator. -/
def firstValidTxn : List (List Char) → Option (List Char)
  | [] => none
  | n :: rest => if is_valid_transaction_number n then some n else firstValidTxn rest

/-- `[A-Z0-9]{8,20}` with `re.IGNORECASE` (esic.py line 779). -/
def alnum820RE : RE := rrep pAlnum 8 20

/-- `\b[A-Z0-9]{10,20}\b` with `re.IGNORECASE` (esic.py line 785). -/
def wb1020RE : RE := cats [.wb, rrep pAlnum 10 20, .wb]

/-- Phase 2 of `_extract_transaction_number` (esic.py lines 772-782):
scan the lines; in a line containing an indicator word, the first
8-20 character alphanumeric run passing the validator is returned.
(Python re-runs the same extraction once per matching indicator of a
line; the outcome is identical, so one check per line is modelled.) -/
def txnPhase2 : List (List Char) → Option (List Char)
  | [] => none
  | line :: rest =>
    if txnIndicators.any (fun ind => pyContains (pyLower line) ind) then
      match firstValidTxn (refindall alnum820RE line) with
      | some n => some n
      | none => txnPhase2 rest
    else txnPhase2 rest

/-- `_extract_transaction_number(text, pattern_list)` (esic.py lines
755-790): phase 1 over all but the loosest pattern, then the
indicator-line scan, then the document-wide `\b[A-Z0-9]{10,20}\b`
sweep; `none` models Python's `None`. -/
def extract_transaction_number (text : List Char) : Option (List Char) :=
  match txnPhase1 text txnPatterns.dropLast with
  | some c => some c
  | none =>
    match txnPhase2 (pySplitChar '\n' text) with
    | some n => some n
    | none => firstValidTxn (refindall wb1020RE text)

/-- The nine extracted challan fields, each the matched string or the
sentinel "Not Found". -/
structure ChallanFields where
  transaction_status : List Char
  employer_code : List Char
  employer_name : List Char
  challan_period : List Char
  challan_number : List Char
  challan_created_date : List Char
  challan_submitted_date : List Char
  amount_paid : List Char
  transaction_number : List Char
deriving DecidableEq, Repr

/-- First pattern in the list whose search succeeds, yielding the
stripped first capture (esic.py lines 745-749). -/
def firstPatternValue (text : List Char) : List RE → Option (List Char)
  | [] => none
  | p :: rest =>
    match researchGrp p text 1 with
    | some g => some (pyStrip g)
    | none => firstPatternValue text rest

/-- `extracted_data[field] = value if value else "Not Found"`
(esic.py line 751): `None` and the empty string both degrade to the
sentinel. -/
def fieldValue (v : Option (List Char)) : List Char :=
  match v with
  | some s => if s.isEmpty then "Not Found".toList else s
  | none => "Not Found".toList

/-- `extract_field_patterns(text)` (esic.py lines 671-753). -/
def extract_field_patterns (text : List Char) : ChallanFields :=
  { transaction_status := fieldValue (firstPatternValue text transaction_status_REs),
    employer_code := fieldValue (firstPatternValue text employer_code_REs),
    employer_name := fieldValue (firstPatternValue text employer_name_REs),
    challan_period := fieldValue (firstPatternValue text challan_period_REs),
    challan_number := fieldValue (firstPatternValue text challan_number_REs),
    challan_created_date := fieldValue (firstPatternValue text challan_created_date_REs),
    challan_submitted_date := fieldValue (firstPatternValue text challan_submitted_date_REs),
    amount_paid := fieldValue (firstPatternValue text amount_paid_REs),
    transaction_number := fieldValue (extract_transaction_number text) }

/-- Table-row detector of esic.py line 828:
`\s+\d+\.\d{2}\s+|\s+₹\s*\d+` (case-sensitive). -/
def tableLineRE : RE :=
  .alt (cats [rplus pyWs, rplus Char.isDigit, litc '.', rrep Char.isDigit 2 2, rplus pyWs])
    (cats [rplus pyWs, .cls (fun c => c = rupeeChar), rstar pyWs, rplus Char.isDigit])

/-- `re.split(r'\s{2,}', line)`: pieces between maximal whitespace runs
of length at least two; shorter whitespace stays inside a piece. -/
def split2wsGo : List Char → List Char → List (List Char)
  | [], cur => [cur.reverse]
  | c :: rest, cur =>
    if pyWs c then
      if 2 ≤ ((c :: rest).takeWhile pyWs).length then
        cur.reverse :: split2wsGo ((c :: rest).drop ((c :: rest).takeWhile pyWs).length) []
      else split2wsGo rest (c :: cur)
    else split2wsGo rest (c :: cur)
termination_by l _ => l.length
decreasing_by
  · simp only [List.length_drop, List.length_cons]
    omega
  · simp
  · simp

/-- `re.split(r'\s{2,}', line)`. -/
def split2ws (l : List Char) : List (List Char) :=
  split2wsGo l []

/-- `extract_table_data(text)` (esic.py lines 818-840): keep lines that
match the detector and have at least three whitespace tokens; each such
line becomes a row of its stripped, nonempty cells; nonempty rows are
collected into the single detected table. -/
def extract_table_data (text : List Char) : List (List (List (List Char))) :=
  let lines := pySplitChar '\n' text
  let potential := lines.filter (fun line =>
    (research tableLineRE line).isSome && decide (3 ≤ (pySplitWs line).length))
  if potential.isEmpty then []
  else
    [(potential.map (fun line =>
        ((split2ws line).map pyStrip).filter (fun cell => !cell.isEmpty))).filter
      (fun row => !row.isEmpty)]

/-- The result dictionary of `process_single_pdf` (esic.py lines
842-885); keys absent from a given status's dictionary are `none`. -/
structure ChallanResult where
  filename : List Char
  status : List Char
  error : Option (List Char)
  extracted_data : Option ChallanFields
  tables : Option (List (List (List (List Char))))
  raw_text : Option (List Char)
deriving DecidableEq, Repr

/-- `process_single_pdf(pdf_bytes, filename)` (esic.py lines 842-885)
over the text handed back by the extraction collaborator
(`extract_text_from_pdf`), `none` modelling its `None`.  The `except`
branch for an uncaught fault during extraction cannot arise in this
pure embedding, whose field extraction is total. -/
def process_single_pdf (text? : Option (List Char)) (filename : List Char) : ChallanResult :=
  match text? with
  | none =>
    { filename := filename, status := "error".toList,
      error := some "Could not extract text from PDF".toList,
      extracted_data := none, tables := none, raw_text := none }
  | some text =>
    if text.isEmpty then
      { filename := filename, status := "error".toList,
        error := some "Could not extract text from PDF".toList,
        extracted_data := none, tables := none, raw_text := none }
    else if !check_esic_keywords text then
      { filename := filename, status := "not_esic".toList,
        error := some "Document does not appear to be an ESIC challan".toList,
        extracted_data := none, tables := none, raw_text := none }
    else
      { filename := filename, status := "success".toList,
        error := none,
        extracted_data := some (extract_field_patterns text),
        tables := some (extract_table_data text),
        raw_text := some (if 1000 < text.length then text.take 1000 ++ "...".toList
          else text) }

/-- The data-token list produced by the row parser's classification
phase for a row (the tokens after the first ten-digit anchor, routed to
the data list by the one-way flag); named so the count-based numeric
assignment can be stated against the parser. -/
def rowDataTokens (rowText : List Char) : List (List Char) :=
  let parts := pySplitWs (pyStrip rowText)
  match parts.enum.find? (fun x => is10Digits x.2) with
  | some pr => (classifyGo (parts.drop (pr.1 + 1)) true ([], [])).2
  | none => []

/-- The numeric data tokens of a row (`numeric_values` of esic.py lines
300-307). -/
def rowNumericValues (rowText : List Char) : List (List Char) :=
  (splitNumText (rowDataTokens rowText)).1

theorem splitOnP_allP {α : Type} (p : α → Bool) (w : List α)
    (hw : ∀ c ∈ w, p c = true) :
    List.splitOnP p w = List.replicate (w.length + 1) [] := by
  induction w with
  | nil => simp [List.splitOnP_nil]
  | cons c w ih =>
    rw [List.splitOnP_cons]
    simp only [hw c (List.mem_cons_self c w), if_true]
    rw [ih (fun x hx => hw x (List.mem_cons_of_mem c hx))]
    simp [List.replicate_succ]

theorem splitOnP_append_allP {α : Type} (p : α → Bool) (t w : List α)
    (hw : ∀ c ∈ w, p c = true) :
    List.splitOnP p (t ++ w) = List.splitOnP p t ++ List.replicate w.length [] := by
  induction t with
  | nil =>
    rw [List.nil_append, splitOnP_allP p w hw, List.splitOnP_nil]
    simp [List.replicate_succ]
  | cons c t ih =>
    rw [List.cons_append, List.splitOnP_cons, List.splitOnP_cons]
    by_cases hc : p c
    · simp [hc, ih]
    · simp only [hc, if_false, Bool.false_eq_true]
      rw [ih]
      obtain ⟨h, rest, hh⟩ : ∃ h rest, List.splitOnP p t = h :: rest := by
        cases hsp : List.splitOnP p t with
        | nil => exact absurd hsp (List.splitOnP_ne_nil _ t)
        | cons h rest => exact ⟨h, rest, rfl⟩
      rw [hh]
      simp [List.modifyHead]

theorem pySplitWs_append_ws (t w : List Char) (hw : ∀ c ∈ w, pyWs c = true) :
    pySplitWs (t ++ w) = pySplitWs t := by
  unfold pySplitWs
  rw [splitOnP_append_allP pyWs t w hw, List.filter_append]
  simp

theorem pySplitWs_dropWhile (l : List Char) :
    pySplitWs (l.dropWhile pyWs) = pySplitWs l := by
  induction l with
  | nil => rfl
  | cons c t ih =>
    by_cases hc : pyWs c
    · rw [List.dropWhile_cons_of_pos hc, ih]
      unfold pySplitWs
      rw [List.splitOnP_cons]
      simp [hc]
    · rw [List.dropWhile_cons_of_neg hc]

theorem pySplitWs_strip (l : List Char) : pySplitWs (pyStrip l) = pySplitWs l := by
  unfold pyStrip
  rw [← pySplitWs_dropWhile l]
  set m := l.dropWhile pyWs with hm
  have hdecomp : m.reverse.reverse =
      (m.reverse.dropWhile pyWs).reverse ++ (m.reverse.takeWhile pyWs).reverse := by
    rw [← List.reverse_append, List.takeWhile_append_dropWhile]
  have hws : ∀ c ∈ (m.reverse.takeWhile pyWs).reverse, pyWs c = true := by
    intro c hc
    exact List.mem_takeWhile_imp (List.mem_reverse.mp hc)
  calc pySplitWs ((m.reverse.dropWhile pyWs).reverse)
      = pySplitWs ((m.reverse.dropWhile pyWs).reverse ++
          (m.reverse.takeWhile pyWs).reverse) :=
        (pySplitWs_append_ws _ _ hws).symm
    _ = pySplitWs m := by rw [← hdecomp, List.reverse_reverse]

/-- C2: the keyword gate accepts a document exactly when at least 3 of the
5 fixed terms occur as case-insensitive substrings of its text; in
particular a text containing exactly 3 of the terms is accepted and one
containing exactly 2 is rejected, wherever the terms appear. -/
theorem c2_keyword_gate :
    (∀ text : List Char, check_esic_keywords text = true ↔
      3 ≤ required_keywords.countP (fun k => pyContains (pyLower text) k)) ∧
    check_esic_keywords "xx esic yy challan zz employer".toList = true ∧
    check_esic_keywords "esic challan only".toList = false := by
  refine ⟨fun text => ?_, by decide, by decide⟩
  unfold check_esic_keywords
  by_cases h : text.isEmpty
  · have : text = [] := List.isEmpty_iff.mp h
    subst this
    simp only [h, if_true]
    constructor
    · intro hf
      exact absurd hf (by decide)
    · intro hc
      exact absurd hc (by decide)
  · simp [h]

/-- C6 counterexample: the claim says sentinel inputs map to the original
unmodified string in the challan context, but `safe_numeric_convert_challan`
maps the sentinel "n/a" to the number 0.0, not to the string "n/a". -/
theorem c6_cex_challan_sentinel :
    safe_numeric_convert_challan "n/a".toList = .num (.finite 0) ∧
    ChallanNum.num (.finite 0) ≠ ChallanNum.orig "n/a".toList := by
  exact ⟨by decide, by decide⟩

/-- C6 (amended): in the ECR context sentinels and parse failures map to
zero (`"12,345.00"` to `12345.0`, `"-"` to `0.0`); in the challan context
the sentinels `""`/`"not found"`/`"n/a"`/`"error"` map to zero, while
`"-"` and every other non-sentinel value failing the numeric parse
return the original unmodified string. -/
theorem c6_numeric_normalizer :
    (∀ v, sentinelECR v = true → safe_numeric_convert v = .finite 0) ∧
    (∀ v, sentinelECR v = false →
      pyFloat? (pyStrip (v.filter (fun c => c ≠ ','))) = none →
      safe_numeric_convert v = .finite 0) ∧
    safe_numeric_convert "12,345.00".toList = .finite 12345 ∧
    safe_numeric_convert "-".toList = .finite 0 ∧
    (∀ v, sentinelChallan v = true →
      safe_numeric_convert_challan v = .num (.finite 0)) ∧
    (∀ v, sentinelChallan v = false →
      pyFloat? (pyStrip ((v.filter (fun c => c ≠ rupeeChar)).filter
        (fun c => c ≠ ','))) = none →
      safe_numeric_convert_challan v = .orig v) ∧
    safe_numeric_convert_challan "-".toList = .orig "-".toList := by
  refine ⟨fun v hv => ?_, fun v hv hp => ?_, by decide, by decide,
    fun v hv => ?_, fun v hv hp => ?_, by decide⟩
  · unfold safe_numeric_convert
    simp only [hv, if_true]
  · unfold safe_numeric_convert
    simp only [hv, Bool.false_eq_true, if_false]
    rw [hp]
  · unfold safe_numeric_convert_challan
    simp only [hv, if_true]
  · unfold safe_numeric_convert_challan
    simp only [hv, Bool.false_eq_true, if_false]
    rw [hp]

/-- C6 witness: the non-sentinel, non-parsing input "abc" maps to zero in
the ECR context and to itself in the challan context. -/
theorem c6_numeric_normalizer_witness :
    safe_numeric_convert "abc".toList = .finite 0 ∧
    safe_numeric_convert_challan "abc".toList = .orig "abc".toList := by
  exact ⟨c6_numeric_normalizer.2.1 "abc".toList (by decide) (by decide),
    (c6_numeric_normalizer.2.2.2.2.2.1 "abc".toList (by decide) (by decide))⟩

/-- C9 counterexample: the candidate "1234-5678-9012" is not digits-only
and does not contain a letter, so the claim says it is rejected; the
validator accepts it (the letterless branch only requires some digit, no
letter, and length at least 12). -/
theorem c9_cex_not_digits_only :
    is_valid_transaction_number "1234-5678-9012".toList = true ∧
    "1234-5678-9012".toList.all Char.isDigit = false ∧
    "1234-5678-9012".toList.any Char.isAlpha = false := by
  exact ⟨by decide, by decide, by decide⟩

/-- C9 (amended): the validator accepts exactly the candidates of length
at least 8 free of false-positive substrings that either contain both a
letter and a digit, or contain a digit, no letter, and have length at
least 12 (other characters such as `-` or `/` are permitted in the
letterless branch); "AMOUNTPAID123" is rejected and "UTR1234567"
accepted. -/
theorem c9_transaction_validator :
    (∀ c : List Char, is_valid_transaction_number c = true ↔
      (8 ≤ c.length ∧
       (∀ fp ∈ falsePositives, pyContains (pyLower c) fp = false) ∧
       ((c.any Char.isAlpha = true ∧ c.any Char.isDigit = true) ∨
        (c.any Char.isDigit = true ∧ c.any Char.isAlpha = false ∧
          12 ≤ c.length)))) ∧
    is_valid_transaction_number "AMOUNTPAID123".toList = false ∧
    is_valid_transaction_number "UTR1234567".toList = true := by
  refine ⟨fun c => ?_, by decide, by decide⟩
  unfold is_valid_transaction_number
  dsimp only
  constructor
  · intro hT
    split_ifs at hT with h1 h2 h3 h4
    · simp only [Bool.or_eq_true, not_or, List.isEmpty_iff,
        decide_eq_true_eq, not_lt] at h1
      refine ⟨h1.2, ?_, ?_⟩
      · intro fp hmem
        simp only [List.any_eq_true, not_exists, not_and] at h2
        exact Bool.eq_false_iff.mpr (h2 fp hmem)
      · rw [Bool.and_eq_true] at h3
        exact Or.inl ⟨h3.1, h3.2⟩
    · simp only [Bool.or_eq_true, not_or, List.isEmpty_iff,
        decide_eq_true_eq, not_lt] at h1
      refine ⟨h1.2, ?_, ?_⟩
      · intro fp hmem
        simp only [List.any_eq_true, not_exists, not_and] at h2
        exact Bool.eq_false_iff.mpr (h2 fp hmem)
      · rw [Bool.and_eq_true, Bool.and_eq_true] at h4
        obtain ⟨⟨h4a, h4b⟩, h4c⟩ := h4
        have h4b2 : c.any Char.isAlpha = false := by
          cases hcase : c.any Char.isAlpha
          · rfl
          · rw [hcase] at h4b
            exact absurd h4b (by simp)
        exact Or.inr ⟨h4a, h4b2, of_decide_eq_true h4c⟩
  · rintro ⟨hlen, hfp, hbr⟩
    split_ifs with h1 h2 h3 h4
    · rw [Bool.or_eq_true] at h1
      rcases h1 with h1 | h1
      · have : c = [] := List.isEmpty_iff.mp h1
        subst this
        simp at hlen
      · have := of_decide_eq_true h1
        omega
    · rw [List.any_eq_true] at h2
      obtain ⟨fp, hmem, hcon⟩ := h2
      rw [hfp fp hmem] at hcon
      exact absurd hcon (by simp)
    · rfl
    · rfl
    · rcases hbr with ⟨ha, hd⟩ | ⟨hd, hna, h12⟩
      · exact absurd (Bool.and_eq_true _ _ |>.mpr ⟨ha, hd⟩) h3
      · exact absurd (by simp [hd, hna, h12] :
          (c.any Char.isDigit && !c.any Char.isAlpha &&
            decide (12 ≤ c.length)) = true) h4

/-- C10: every result of `process_single_pdf` carries one of the three
statuses, the two non-success statuses carry an error message and no
payload, and a success carries exactly the extracted field map and the
detected tables with no error message.  (The Python `except` branch also
yields the error shape; it is unreachable in this pure embedding.) -/
theorem c10_result_shape :
    ∀ (td : Option (List Char)) (fn : List Char),
      ((process_single_pdf td fn).status = "success".toList ∨
       (process_single_pdf td fn).status = "not_esic".toList ∨
       (process_single_pdf td fn).status = "error".toList) ∧
      ((process_single_pdf td fn).status = "error".toList →
        (process_single_pdf td fn).error.isSome = true ∧
        (process_single_pdf td fn).extracted_data = none ∧
        (process_single_pdf td fn).tables = none) ∧
      ((process_single_pdf td fn).status = "not_esic".toList →
        (process_single_pdf td fn).error.isSome = true ∧
        (process_single_pdf td fn).extracted_data = none ∧
        (process_single_pdf td fn).tables = none) ∧
      ((process_single_pdf td fn).status = "success".toList →
        (process_single_pdf td fn).error = none ∧
        ∃ t, td = some t ∧
          (process_single_pdf td fn).extracted_data = some (extract_field_patterns t) ∧
          (process_single_pdf td fn).tables = some (extract_table_data t)) := by
  intro td fn
  rcases td with _ | t
  · have hst : (process_single_pdf none fn).status = "error".toList := rfl
    refine ⟨Or.inr (Or.inr hst), fun _ => ⟨rfl, rfl, rfl⟩, fun h => ?_, fun h => ?_⟩
    · rw [hst] at h
      exact absurd h (by decide)
    · rw [hst] at h
      exact absurd h (by decide)
  · cases he : t.isEmpty
    · cases hk : check_esic_keywords t
      · have hred : process_single_pdf (some t) fn =
            { filename := fn, status := "not_esic".toList,
              error := some "Document does not appear to be an ESIC challan".toList,
              extracted_data := none, tables := none, raw_text := none } := by
          unfold process_single_pdf
          simp only [he, hk, Bool.not_false, Bool.false_eq_true, if_false, if_true]
        rw [hred]
        exact ⟨Or.inr (Or.inl rfl),
          fun h => absurd (show "not_esic".toList = "error".toList from h) (by decide),
          fun _ => ⟨rfl, rfl, rfl⟩,
          fun h => absurd (show "not_esic".toList = "success".toList from h) (by decide)⟩
      · have hred : process_single_pdf (some t) fn =
            { filename := fn, status := "success".toList, error := none,
              extracted_data := some (extract_field_patterns t),
              tables := some (extract_table_data t),
              raw_text := some (if 1000 < t.length then t.take 1000 ++ "...".toList
                else t) } := by
          unfold process_single_pdf
          simp only [he, hk, Bool.not_true, Bool.false_eq_true, if_false]
        rw [hred]
        exact ⟨Or.inl rfl,
          fun h => absurd (show "success".toList = "error".toList from h) (by decide),
          fun h => absurd (show "success".toList = "not_esic".toList from h) (by decide),
          fun _ => ⟨rfl, t, rfl, rfl, rfl⟩⟩
    · have hred : process_single_pdf (some t) fn =
          { filename := fn, status := "error".toList,
            error := some "Could not extract text from PDF".toList,
            extracted_data := none, tables := none, raw_text := none } := by
        unfold process_single_pdf
        simp only [he, if_true]
      rw [hred]
      exact ⟨Or.inr (Or.inr rfl), fun _ => ⟨rfl, rfl, rfl⟩,
        fun h => absurd (show "error".toList = "not_esic".toList from h) (by decide),
        fun h => absurd (show "error".toList = "success".toList from h) (by decide)⟩

/-- C10 witness: a text passing the keyword gate yields the success
shape with the field map and tables populated and no error. -/
theorem c10_result_shape_witness :
    (process_single_pdf (some "esic challan employer".toList) "f.pdf".toList).status
      = "success".toList ∧
    (process_single_pdf (some "esic challan employer".toList) "f.pdf".toList).error
      = none ∧
    (process_single_pdf (some "esic challan employer".toList) "f.pdf".toList).extracted_data
      = some (extract_field_patterns "esic challan employer".toList) := by
  have hs : (process_single_pdf (some "esic challan employer".toList)
      "f.pdf".toList).status = "success".toList := by decide
  obtain ⟨-, -, -, h4⟩ :=
    c10_result_shape (some "esic challan employer".toList) "f.pdf".toList
  obtain ⟨he, t, ht, hx, -⟩ := h4 hs
  injection ht with ht2
  subst ht2
  exact ⟨hs, he, hx⟩

/-- C3 counterexample: the line "for Xyz2024" has period token "Xyz2024"
whose leading alphabetic run "Xyz" is none of the twelve month
abbreviations, yet the derived month is the pass-through "Xyz", not the
claimed sentinel "Not Found". -/
theorem c3_cex_passthrough :
    extract_month_from_text "for Xyz2024".toList = "Xyz".toList ∧
    monthMap.find? (fun x => x.1 = pyCapitalize "Xyz".toList) = none ∧
    "Xyz".toList ≠ "Not Found".toList :=
  ⟨by decide, by decide, by decide⟩

/-- C3 (amended): when the primary pattern captures a period token, the
derived month is `month_mapping.get(run.capitalize(), run.capitalize())`
for the token's leading alphabetic run: the full month name when the
capitalized run is one of the twelve abbreviations, and the capitalized
run itself (pass-through, never "Not Found") otherwise; in particular
"for Apr2024" gives "April" and "for Xyz2024" gives "Xyz". -/
theorem c3_month_passthrough :
    (∀ (text period run : List Char),
      researchGrp monthPrimaryRE text 1 = some period →
      (rematch monthAlpha39RE period).bind (fun cp => getGrp cp 1) = some run →
      (monthMap.find? (fun x => x.1 = pyCapitalize run) = none →
        extract_month_from_text text = pyCapitalize run) ∧
      (∀ pr, monthMap.find? (fun x => x.1 = pyCapitalize run) = some pr →
        extract_month_from_text text = pr.2)) ∧
    extract_month_from_text "for Apr2024".toList = "April".toList ∧
    extract_month_from_text "for Xyz2024".toList = "Xyz".toList := by
  refine ⟨fun text period run h1 h2 => ?_, by decide, by decide⟩
  unfold researchGrp at h1
  obtain ⟨cp, hcp, hg⟩ := Option.bind_eq_some.mp h1
  obtain ⟨cp2, hcp2, hg2⟩ := Option.bind_eq_some.mp h2
  unfold extract_month_from_text
  simp only [hcp, hg, hcp2, hg2]
  constructor
  · intro hnone
    unfold monthGetD
    rw [hnone]
  · intro pr hsome
    unfold monthGetD
    rw [hsome]

/-- C3 witness: the amended theorem applied to "for Xyz2024". -/
theorem c3_month_passthrough_witness :
    extract_month_from_text "for Xyz2024".toList = pyCapitalize "Xyz".toList :=
  (c3_month_passthrough.1 "for Xyz2024".toList "Xyz2024".toList "Xyz".toList
    (by decide) (by decide)).1 (by decide)

/-- C4 counterexample: the claim says header fields set by trigger 1 are
not overwritten by a later matching line (first-write-wins); scanning a
second `ECR Of` line overwrites the establishment code and period with
the later line's values. -/
theorem c4_cex_overwrite :
    (headerScan ["ECR Of 111 for Apr2024".toList] emptyEcrAcc).header.establishment_code
      = some "111".toList ∧
    (headerScan ["ECR Of 111 for Apr2024".toList, "ECR Of 222 for May2024".toList]
        emptyEcrAcc).header.establishment_code = some "222".toList ∧
    (headerScan ["ECR Of 111 for Apr2024".toList, "ECR Of 222 for May2024".toList]
        emptyEcrAcc).header.period = some "May2024".toList :=
  ⟨by decide, by decide, by decide⟩

/-- C4 (amended): triggers 1 and 2 are last-write-wins, not
first-write-wins: a line matching trigger 1 always overwrites
establishment code, period and month with the new match (leaving
organization and the summary unchanged, the frame part of the claim),
and a trigger-2 line always overwrites the organization (leaving the
other fields unchanged). -/
theorem c4_header_triggers_last_write :
    (∀ (acc : EcrAcc) (line next : List Char) (cp : Caps) (g2 g3 : List Char),
      (pyContains line "ECR Of".toList || pyContains line "Contribution History".toList)
        = true →
      research trig1RE line = some cp →
      getGrp cp 2 = some g2 → getGrp cp 3 = some g3 →
      headerStep acc line next =
        { acc with header := { acc.header with
            establishment_code := some g2, period := some g3,
            month := some (extract_month_from_text line) } }) ∧
    (∀ (acc : EcrAcc) (line next : List Char),
      pyContains line "ECR Of".toList = false →
      pyContains line "Contribution History".toList = false →
      pyContains line orgAnchor = true →
      headerStep acc line next =
        { acc with header := { acc.header with organization := some (pyStrip line) } }) := by
  constructor
  · intro acc line next cp g2 g3 hguard hcp hg2 hg3
    unfold headerStep
    simp only [hguard, if_true, hcp, hg2, hg3]
  · intro acc line next h1 h2 h3
    unfold headerStep
    simp only [h1, h2, h3, Bool.or_self, Bool.false_eq_true, if_false, if_true]

/-- C4 witness: a trigger-1 line overwrites an already-populated header. -/
theorem c4_header_triggers_last_write_witness :
    headerStep ⟨⟨some "111".toList, some "Apr2024".toList, some "April".toList, none⟩, none⟩
        "ECR Of 222 for May2024".toList [] =
      ⟨⟨some "222".toList, some "May2024".toList, some "May".toList, none⟩, none⟩ := by
  have h := c4_header_triggers_last_write.1
    ⟨⟨some "111".toList, some "Apr2024".toList, some "April".toList, none⟩, none⟩
    "ECR Of 222 for May2024".toList []
    ((research trig1RE "ECR Of 222 for May2024".toList).getD [])
    "222".toList "May2024".toList (by decide) (by decide) (by decide) (by decide)
  rw [h]
  decide

/-- C5: when a line carries both totals labels (and no earlier trigger
fires on it), fewer than five numeric tokens on the following line leave
the summary accumulator exactly as it was, while five or more replace
all five totals with the first five tokens in order, independently of
the previous summary — so a later full match replaces them again
(last-write-wins follows by instantiating the second part at the updated
accumulator). -/
theorem c5_summary_all_or_nothing :
    ∀ (acc : EcrAcc) (line next : List Char),
      pyContains line "ECR Of".toList = false →
      pyContains line "Contribution History".toList = false →
      pyContains line orgAnchor = false →
      pyContains line "Total IP Contribution".toList = true →
      pyContains line "Total Employer Contribution".toList = true →
      ((refindall amountsRE next).length < 5 → headerStep acc line next = acc) ∧
      (∀ a0 a1 a2 a3 a4 rest,
        refindall amountsRE next = a0 :: a1 :: a2 :: a3 :: a4 :: rest →
        headerStep acc line next = { acc with summary := some ⟨a0, a1, a2, a3, a4⟩ }) := by
  intro acc line next h1 h2 h3 h4 h5
  constructor
  · intro hlen
    unfold headerStep
    simp only [h1, h2, h3, h4, h5, Bool.or_self, Bool.false_eq_true, if_false,
      Bool.and_self, if_true]
    rcases hL : refindall amountsRE next with _ | ⟨a0, _ | ⟨a1, _ | ⟨a2, _ | ⟨a3, _ | ⟨a4, rest⟩⟩⟩⟩⟩
    · rfl
    · rfl
    · rfl
    · rfl
    · rfl
    · rw [hL] at hlen
      simp only [List.length_cons] at hlen
      omega
  · intro a0 a1 a2 a3 a4 rest hL
    unfold headerStep
    simp only [h1, h2, h3, h4, h5, Bool.or_self, Bool.false_eq_true, if_false,
      Bool.and_self, if_true, hL]

/-- C5 witness: a full five-token next line replaces the summary; a
two-token next line leaves the accumulator untouched. -/
theorem c5_summary_all_or_nothing_witness :
    headerStep emptyEcrAcc
        "Total IP Contribution Total Employer Contribution".toList
        "1.00 2.00 3.00 4.00 5.00".toList =
      { emptyEcrAcc with summary := some ⟨"1.00".toList, "2.00".toList, "3.00".toList,
          "4.00".toList, "5.00".toList⟩ } ∧
    headerStep emptyEcrAcc
        "Total IP Contribution Total Employer Contribution".toList
        "1.00 2.00".toList = emptyEcrAcc := by
  constructor
  · exact (c5_summary_all_or_nothing emptyEcrAcc
      "Total IP Contribution Total Employer Contribution".toList
      "1.00 2.00 3.00 4.00 5.00".toList
      (by decide) (by decide) (by decide) (by decide) (by decide)).2
      "1.00".toList "2.00".toList "3.00".toList "4.00".toList "5.00".toList []
      (by decide)
  · exact (c5_summary_all_or_nothing emptyEcrAcc
      "Total IP Contribution Total Employer Contribution".toList
      "1.00 2.00".toList
      (by decide) (by decide) (by decide) (by decide) (by decide)).1
      (by decide)

/-- C7 counterexample: after a row-start line has opened a row, a
following line with no embedded ten-digit token is appended only when it
begins with digits; the continuation line "WRAPPED NAME" is silently
dropped, not merged as the claim states. -/
theorem c7_cex_nondigit_ignored :
    rowSegment ["1 - 1234567890 A 1.00".toList, "WRAPPED NAME".toList] false [] =
      ["1 - 1234567890 A 1.00".toList] ∧
    hasEmbeddedIp "WRAPPED NAME".toList = false ∧
    ("1 - 1234567890 A 1.00".toList : List Char) ≠
      "1 - 1234567890 A 1.00 WRAPPED NAME".toList :=
  ⟨by decide, by decide, by decide⟩

/-- C7 (amended): one step of the segmenter, for a nonblank stripped
line.  A row-start line always opens a new row.  After a row has been
opened, a line beginning with digits opens a new row if it carries an
embedded ten-digit token at token index one or beyond, and otherwise is
appended space-joined to the previous row; a line not beginning with
digits stops the scan if its lowercased form starts with "page" or
"printed" and is otherwise ignored (not appended).  Output order is
preserved (rows are only appended or extended at the tail). -/
theorem c7_row_segmenter :
    ∀ (l : List Char) (rest : List (List Char)) (acc : List (List Char))
      (started : Bool),
      (pyStrip l).isEmpty = false →
      (((research rowStartRE (pyStrip l)).isSome = true →
         rowSegment (l :: rest) started acc = rowSegment rest true (acc ++ [pyStrip l])) ∧
       ((research rowStartRE (pyStrip l)).isSome = false →
        (rematch (rplus Char.isDigit) (pyStrip l)).isSome = true →
        ((hasEmbeddedIp (pyStrip l) = true →
           rowSegment (l :: rest) true acc = rowSegment rest true (acc ++ [pyStrip l])) ∧
         (hasEmbeddedIp (pyStrip l) = false →
          ∀ (prev : List (List Char)) (a : List Char), acc = prev ++ [a] →
           rowSegment (l :: rest) true acc =
             rowSegment rest true (prev ++ [a ++ ' ' :: pyStrip l])))) ∧
       ((research rowStartRE (pyStrip l)).isSome = false →
        (rematch (rplus Char.isDigit) (pyStrip l)).isSome = false →
        ("page".toList.isPrefixOf (pyLower (pyStrip l)) ||
          "printed".toList.isPrefixOf (pyLower (pyStrip l))) = true →
        rowSegment (l :: rest) true acc = acc) ∧
       ((research rowStartRE (pyStrip l)).isSome = false →
        (rematch (rplus Char.isDigit) (pyStrip l)).isSome = false →
        ("page".toList.isPrefixOf (pyLower (pyStrip l)) ||
          "printed".toList.isPrefixOf (pyLower (pyStrip l))) = false →
        rowSegment (l :: rest) true acc = rowSegment rest true acc)) := by
  intro l rest acc started hne
  refine ⟨fun hrs => ?_, fun hrs hdig => ⟨fun hip => ?_, fun hip prev a hacc => ?_⟩,
    fun hrs hdig hftr => ?_, fun hrs hdig hftr => ?_⟩
  · rw [rowSegment]
    simp only [hne, Bool.false_eq_true, if_false, hrs, if_true]
  · rw [rowSegment]
    simp only [hne, Bool.false_eq_true, if_false, hrs, hdig, hip,
      Bool.true_and, if_true]
  · rw [rowSegment]
    simp only [hne, Bool.false_eq_true, if_false, hrs, hdig, hip,
      Bool.true_and, if_true, hacc, List.getLast?_concat, List.dropLast_concat]
  · rw [rowSegment]
    simp only [hne, Bool.false_eq_true, if_false, hrs, hdig, hftr,
      Bool.true_and, Bool.and_false, if_true]
  · rw [rowSegment]
    simp only [hne, Bool.false_eq_true, if_false, hrs, hdig, hftr,
      Bool.true_and, Bool.and_false, if_false]

/-- C7 witness: a row-start line followed by a digit-leading continuation
line without an embedded anchor merges into one row. -/
theorem c7_row_segmenter_witness :
    rowSegment ["1 - 1234567890 A 1.00".toList, "2 CONTINUED".toList] false [] =
      ["1 - 1234567890 A 1.00 2 CONTINUED".toList] := by
  have h1 := (c7_row_segmenter "1 - 1234567890 A 1.00".toList ["2 CONTINUED".toList]
    [] false (by decide)).1 (by decide)
  have h2 := (((c7_row_segmenter "2 CONTINUED".toList [] ["1 - 1234567890 A 1.00".toList]
    true (by decide)).2.1 (by decide) (by decide)).2 (by decide))
    [] "1 - 1234567890 A 1.00".toList (by decide)
  rw [h1]
  simp only [List.nil_append] at h2 ⊢
  have hstrip1 : pyStrip "1 - 1234567890 A 1.00".toList =
      "1 - 1234567890 A 1.00".toList := by decide
  rw [hstrip1, h2]
  decide

/-- C1: the row field extractor returns nothing or a complete record
whose IP number is one of the row's whitespace tokens and is exactly ten
digits; it returns nothing on fewer than six tokens, on no ten-digit
token, and on a first ten-digit token at index below two.  (A record, as
a value of `EmployeeRecord`, is always complete; no partial record
exists.) -/
theorem c1_row_parser_ip_invariant :
    ∀ (rowText : List Char) (summary : Option SummaryInfo) (header : HeaderInfo),
      ((pySplitWs rowText).length < 6 →
        parse_employee_row_improved rowText summary header = none) ∧
      ((∀ tok ∈ pySplitWs rowText, is10Digits tok = false) →
        parse_employee_row_improved rowText summary header = none) ∧
      (∀ pr, (pySplitWs rowText).enum.find? (fun x => is10Digits x.2) = some pr →
        pr.1 < 2 → parse_employee_row_improved rowText summary header = none) ∧
      (∀ r, parse_employee_row_improved rowText summary header = some r →
        is10Digits r.ipNumber = true ∧ r.ipNumber ∈ pySplitWs rowText) := by
  intro rowText summary header
  by_cases hrow : (pyStrip rowText).isEmpty = true
  · have hnone : parse_employee_row_improved rowText summary header = none := by
      unfold parse_employee_row_improved
      dsimp only
      rw [if_pos hrow]
    refine ⟨fun _ => hnone, fun _ => hnone, fun pr _ _ => hnone, fun r hr => ?_⟩
    rw [hnone] at hr
    exact Option.noConfusion hr
  · refine ⟨fun h6 => ?_, fun hall => ?_, fun pr hfind hlt => ?_, fun r hr => ?_⟩
    · unfold parse_employee_row_improved
      dsimp only
      rw [if_neg hrow, pySplitWs_strip, if_pos h6]
    · unfold parse_employee_row_improved
      dsimp only
      rw [if_neg hrow, pySplitWs_strip]
      by_cases h6 : (pySplitWs rowText).length < 6
      · rw [if_pos h6]
      · rw [if_neg h6]
        have hf : (pySplitWs rowText).enum.find? (fun x => is10Digits x.2) = none := by
          rw [List.find?_eq_none]
          intro x hx
          have hmem : x.2 ∈ pySplitWs rowText :=
            List.getElem?_mem (List.mem_enum_iff_getElem?.mp hx)
          simp [hall x.2 hmem]
        rw [hf]
    · unfold parse_employee_row_improved
      dsimp only
      rw [if_neg hrow, pySplitWs_strip]
      by_cases h6 : (pySplitWs rowText).length < 6
      · rw [if_pos h6]
      · obtain ⟨i, tok⟩ := pr
        rw [if_neg h6, hfind]
        dsimp only
        rw [if_pos hlt]
    · unfold parse_employee_row_improved at hr
      dsimp only at hr
      rw [if_neg hrow, pySplitWs_strip] at hr
      by_cases h6 : (pySplitWs rowText).length < 6
      · rw [if_pos h6] at hr
        exact Option.noConfusion hr
      · rw [if_neg h6] at hr
        cases hfind : (pySplitWs rowText).enum.find? (fun x => is10Digits x.2) with
        | none =>
          rw [hfind] at hr
          exact Option.noConfusion hr
        | some pr =>
          obtain ⟨i, tok⟩ := pr
          rw [hfind] at hr
          dsimp only at hr
          by_cases hlt : i < 2
          · rw [if_pos hlt] at hr
            exact Option.noConfusion hr
          · rw [if_neg hlt] at hr
            split at hr
            · injection hr with hr2
              subst hr2
              constructor
              · have hp := List.find?_some hfind
                simpa using hp
              · have hmem : (i, tok) ∈ (pySplitWs rowText).enum :=
                  List.mem_of_find?_eq_some hfind
                have h2 := List.getElem?_mem (List.mem_enum_iff_getElem?.mp hmem)
                simpa using h2
            · exact Option.noConfusion hr

/-- C1 witness: a six-token row with the anchor at index two parses to a
record carrying that anchor; a three-token row is rejected. -/
theorem c1_row_parser_ip_invariant_witness :
    (∃ r, parse_employee_row_improved
        "1 - 1234567890 RAM 26 100.00".toList none ⟨none, none, none, none⟩ = some r ∧
      is10Digits r.ipNumber = true ∧
      r.ipNumber ∈ pySplitWs "1 - 1234567890 RAM 26 100.00".toList) ∧
    parse_employee_row_improved "1 - 1234567890".toList none
      ⟨none, none, none, none⟩ = none := by
  constructor
  · obtain ⟨r, hr⟩ : ∃ r, parse_employee_row_improved
        "1 - 1234567890 RAM 26 100.00".toList none ⟨none, none, none, none⟩ = some r := by
      cases hp : parse_employee_row_improved
          "1 - 1234567890 RAM 26 100.00".toList none ⟨none, none, none, none⟩ with
      | none => exact absurd hp (by decide)
      | some r => exact ⟨r, rfl⟩
    obtain ⟨h1, h2⟩ := (c1_row_parser_ip_invariant
      "1 - 1234567890 RAM 26 100.00".toList none ⟨none, none, none, none⟩).2.2.2 r hr
    exact ⟨r, hr, h1, h2⟩
  · exact (c1_row_parser_ip_invariant "1 - 1234567890".toList none
      ⟨none, none, none, none⟩).1 (by decide)

/-- C8: whenever the row parser emits a record, its numeric fields are
the count-based assignment of the row's numeric data tokens — one token
fills only the contribution, two fill wages then contribution, three or
more fill days, wages, contribution with extras ignored, and unfilled
fields keep the defaults "0"/"0.00" — and the example row
`1 - 1234567890 RAM KUMAR 26 15000.00 1200.00` yields the claimed
record. -/
theorem c8_count_based_assignment :
    (∀ (rowText : List Char) (summary : Option SummaryInfo) (header : HeaderInfo)
        (r : EmployeeRecord),
      parse_employee_row_improved rowText summary header = some r →
      safe_numeric_convert_int (assignByCount (rowNumericValues rowText)).1 =
        some r.days ∧
      r.wages = safe_numeric_convert (ensureDec (assignByCount
        (rowNumericValues rowText)).2.1) ∧
      r.contribution = safe_numeric_convert (ensureDec (assignByCount
        (rowNumericValues rowText)).2.2)) ∧
    parse_employee_row_improved
        "1 - 1234567890 RAM KUMAR 26 15000.00 1200.00".toList none
        ⟨none, none, none, none⟩ =
      some { sno := 1, isDisable := "-".toList, ipNumber := "1234567890".toList,
             ipName := "RAM KUMAR".toList, days := 26,
             wages := .finite 15000, contribution := .finite 1200,
             reason := "-".toList, month := "Not Found".toList,
             totalIpContribution := .finite 0, totalEmployerContribution := .finite 0,
             totalContribution := .finite 0, totalGovernmentContribution := .finite 0,
             totalMonthlyWages := .finite 0 } := by
  refine ⟨fun rowText summary header r hr => ?_, by decide⟩
  unfold parse_employee_row_improved at hr
  dsimp only at hr
  by_cases hrow : (pyStrip rowText).isEmpty = true
  · rw [if_pos hrow] at hr
    exact Option.noConfusion hr
  · rw [if_neg hrow] at hr
    by_cases h6 : (pySplitWs (pyStrip rowText)).length < 6
    · rw [if_pos h6] at hr
      exact Option.noConfusion hr
    · rw [if_neg h6] at hr
      cases hfind : (pySplitWs (pyStrip rowText)).enum.find?
          (fun x => is10Digits x.2) with
      | none =>
        rw [hfind] at hr
        exact Option.noConfusion hr
      | some pr =>
        obtain ⟨i, tok⟩ := pr
        rw [hfind] at hr
        dsimp only at hr
        by_cases hlt : i < 2
        · rw [if_pos hlt] at hr
          exact Option.noConfusion hr
        · rw [if_neg hlt] at hr
          have hnv : rowNumericValues rowText =
              (splitNumText ((classifyGo
                ((pySplitWs (pyStrip rowText)).drop (i + 1)) true ([], [])).2)).1 := by
            unfold rowNumericValues rowDataTokens
            dsimp only
            rw [hfind]
          split at hr
          · injection hr with hr2
            subst hr2
            rename_i snoI daysI hsno hdays
            refine ⟨?_, ?_, ?_⟩
            · rw [hnv]
              exact hdays
            · rw [hnv]
            · rw [hnv]
          · exact Option.noConfusion hr

/-- C8 witness: the general assignment statement applied to the example
row (three numeric tokens: days, wages, contribution). -/
theorem c8_count_based_assignment_witness :
    safe_numeric_convert_int (assignByCount (rowNumericValues
      "1 - 1234567890 RAM KUMAR 26 15000.00 1200.00".toList)).1 = some 26 := by
  have h := (c8_count_based_assignment.1
    "1 - 1234567890 RAM KUMAR 26 15000.00 1200.00".toList none
    ⟨none, none, none, none⟩ _ c8_count_based_assignment.2).1
  simpa using h
